import Mathlib

/-!
azure-ai-textanalyzer: a shallow embedding of `main.go`.

The program pages through the issues of a repository, sends every page to a
text-analysis service, keeps the entities whose confidence score reaches a
threshold and prints one JSON object per document that still has entities.

The embedding follows `main.go` line by line.  Every call that leaves the
program (the environment, `strconv.ParseFloat`, the issue client, the HTTP
client, the JSON codec) is a field of `World`; `main` returns the trace of
observable events of a run.
-/

namespace TextAnalyzer

/-! ## float64 -/

/-- A Go float64, given by its IEEE 754 binary64 bit pattern
(1 sign bit, 11 exponent bits, 52 fraction bits). -/
structure Float64 where
  bits : Nat
deriving DecidableEq, Repr

/-- The sign bit. -/
def Float64.sign (x : Float64) : Nat := x.bits / 2 ^ 63 % 2

/-- The biased exponent field. -/
def Float64.expo (x : Float64) : Nat := x.bits / 2 ^ 52 % 2 ^ 11

/-- The fraction field. -/
def Float64.frac (x : Float64) : Nat := x.bits % 2 ^ 52

/-- Not-a-number: exponent all ones, fraction non-zero. -/
def Float64.isNaN (x : Float64) : Bool := x.expo == 2047 && x.frac != 0

/-- Neither NaN nor an infinity. -/
def Float64.isFinite (x : Float64) : Bool := x.expo != 2047

/-- The position of a non-NaN value on the number line: the magnitude bits
order like the magnitudes, and the sign bit mirrors them (so +0 and -0 meet). -/
def Float64.key (x : Float64) : Int :=
  if x.sign = 1 then - ((x.bits % 2 ^ 63 : Nat) : Int) else ((x.bits % 2 ^ 63 : Nat) : Int)

/-- Go's `a >= b` on float64: false as soon as one side is NaN. -/
def Float64.ge (a b : Float64) : Bool :=
  !a.isNaN && !b.isNaN && decide (b.key ≤ a.key)

/-- Go's `a == b` on float64: false as soon as one side is NaN. -/
def Float64.eq (a b : Float64) : Bool :=
  !a.isNaN && !b.isNaN && decide (a.key = b.key)

/-- The float64 nearest to 0.8 (0x3FE999999999999A). -/
def f64_0_8 : Float64 := ⟨4605380978949069210⟩

/-- The float64 nearest to 0.79999 (0x3FE99984A0E410B6). -/
def f64_0_79999 : Float64 := ⟨4605380888877076662⟩

/-- The float64 nearest to 0.9 (0x3FECCCCCCCCCCCCD). -/
def f64_0_9 : Float64 := ⟨4606281698874543309⟩

/-- The float64 0.5 (0x3FE0000000000000). -/
def f64_0_5 : Float64 := ⟨4602678819172646912⟩

/-- A quiet NaN (0x7FF8000000000001). -/
def f64_NaN : Float64 := ⟨9221120237041090561⟩

/-! ## Data model (`main.go` lines 26-74) -/

/-- The request document, `type Document`. -/
structure Document where
  ID : String
  Text : String
  Language : String
deriving DecidableEq, Repr

/-- The input of the analysis, `type AnalysisInput`. -/
structure AnalysisInput where
  Documents : List Document
deriving DecidableEq, Repr

/-- The parameters of the analysis, `type Parameters`. -/
structure Parameters where
  Domain : String
deriving DecidableEq, Repr

/-- The request body, `type PiiEntityRecognitionRequest`. -/
structure PiiEntityRecognitionRequest where
  Kind : String
  AnalysisInput : AnalysisInput
  Parameters : Parameters
deriving DecidableEq, Repr

/-- A recognised entity, `type Entity`. -/
structure Entity where
  Text : String
  Category : String
  Offset : Int
  Length : Int
  ConfidenceScore : Float64
deriving DecidableEq, Repr

/-- The empty struct `type Warning`. -/
structure Warning where
deriving DecidableEq, Repr

/-- The empty struct `type Error`. -/
structure Error where
deriving DecidableEq, Repr

/-- One document of the response, `type DocumentResponse`. -/
structure DocumentResponse where
  RedactedText : String
  ID : String
  Entities : List Entity
  Warnings : List Warning
deriving DecidableEq, Repr

/-- The results of the response, `type Results`. -/
structure Results where
  Documents : List DocumentResponse
  Errors : List Error
  ModelVersion : String
deriving DecidableEq, Repr

/-- The response body, `type PiiEntityRecognitionResults`. -/
structure PiiEntityRecognitionResults where
  Kind : String
  Results : Results
deriving DecidableEq, Repr

/-- The anonymous struct printed for a document (lines 163-171). -/
structure Result where
  ID : String
  Redacted : String
  Entities : List Entity
deriving DecidableEq, Repr

/-! ## The entity filter (lines 156-161) -/

/-- The inner loop of `main`: starting from the nil slice, append every entity
whose score is `>=` the threshold. -/
def filterEntities (confidenceThreshold : Float64) (docEntities : List Entity) : List Entity :=
  docEntities.foldl
    (fun entities entity =>
      if entity.ConfidenceScore.ge confidenceThreshold then entities ++ [entity] else entities)
    []

/-! ## The outside world -/

/-- The options of the issue listing (`github.IssueListByRepoOptions`, with the
embedded `ListOptions` flattened). -/
structure IssueListByRepoOptions where
  State : String
  PerPage : Nat
  Page : Nat
deriving DecidableEq, Repr

/-- The two fields of `github.Issue` that `main` reads; both are pointers. -/
structure Issue where
  HTMLURL : Option String
  Body : Option String
deriving DecidableEq, Repr

/-- The getter `issue.GetHTMLURL()`: the empty string for a nil field. -/
def Issue.GetHTMLURL (issue : Issue) : String :=
  match issue.HTMLURL with
  | some s => s
  | none => ""

/-- The getter `issue.GetBody()`: the empty string for a nil field. -/
def Issue.GetBody (issue : Issue) : String :=
  match issue.Body with
  | some s => s
  | none => ""

/-- The field of `github.Response` that `main` reads. -/
structure Response where
  NextPage : Int
deriving DecidableEq, Repr

/-- An outgoing `http.Request`. -/
structure HttpRequest where
  Method : String
  URL : String
  Header : List (String × String)
  Body : String
deriving DecidableEq, Repr

/-- The method `req.Header.Add`. -/
def HttpRequest.addHeader (req : HttpRequest) (name value : String) : HttpRequest :=
  { req with Header := req.Header ++ [(name, value)] }

/-- An incoming `http.Response`: its status code and what reading its body to
the end yields. -/
structure HttpResponse where
  StatusCode : Int
  Body : Except String String

/-- Everything `main` obtains from outside: the process environment and the
behaviour of the library calls.  The issue listing and the HTTP client are
indexed so that a stub can answer every call differently: the listing by the
page asked for, the HTTP client by the number of the iteration that calls it. -/
structure World where
  endpoint : String
  key : String
  owner : String
  repo : String
  confidence : String
  parseFloat : String → Except String Float64
  listByRepo : String → String → IssueListByRepoOptions → Except String (List Issue × Response)
  encodeRequest : PiiEntityRecognitionRequest → String
  urlError : String → Option String
  clientDo : Nat → HttpRequest → Except String HttpResponse
  decode : String → Except String PiiEntityRecognitionResults
  encodeIndent : Result → String → String → String

/-- What a run does, in order. -/
inductive Event where
  | listByRepo (owner repo : String) (opts : IssueListByRepoOptions)
  | clientDo (req : HttpRequest)
  | bodyOpen (iter : Nat)
  | bodyClose (iter : Nat)
  | printError (msg err : String)
  | printResult (result : Result) (text : String)
deriving DecidableEq, Repr

/-- Model of `json.Marshal(requestData)`: the request holds only strings, which
always encode. -/
def jsonMarshal (w : World) (v : PiiEntityRecognitionRequest) : Except String String :=
  .ok (w.encodeRequest v)

/-- Model of `http.NewRequest`: it fails exactly when the URL does not parse. -/
def httpNewRequest (w : World) (method url body : String) : Except String HttpRequest :=
  match w.urlError url with
  | some err => .error err
  | none => .ok { Method := method, URL := url, Header := [], Body := body }

/-- Model of `io.ReadAll(resp.Body)`. -/
def ioReadAll (body : Except String String) : Except String String := body

/-- All confidence scores of a decoded response are finite. -/
def PiiEntityRecognitionResults.scoresFinite (v : PiiEntityRecognitionResults) : Bool :=
  v.Results.Documents.all (fun d => d.Entities.all (fun e => e.ConfidenceScore.isFinite))

/-- Model of `json.Unmarshal(responseBody, &textResponse)`: the world parses the
bytes; a JSON number always denotes a finite value, and one out of the float64
range is a decode error. -/
def jsonUnmarshal (w : World) (data : String) : Except String PiiEntityRecognitionResults :=
  match w.decode data with
  | .error err => .error err
  | .ok v =>
    if v.scoresFinite then .ok v
    else .error "json: cannot unmarshal number into Go struct field Entity.confidenceScore of type float64"

/-- Model of `json.MarshalIndent(result, "", "  ")`: strings and integers always
encode, a float64 encodes unless it is NaN or an infinity. -/
def jsonMarshalIndent (w : World) (v : Result) (pre indent : String) : Except String String :=
  if v.Entities.all (fun e => e.ConfidenceScore.isFinite) then .ok (w.encodeIndent v pre indent)
  else .error "json: unsupported value"

/-! ## `main` (lines 76-185) -/

/-- Lines 100-107: one `Document` per issue, appended in order. -/
def buildDocuments (issues : List Issue) : List Document :=
  issues.foldl
    (fun documents issue =>
      documents ++ [{ Language := "en", ID := issue.GetHTMLURL, Text := issue.GetBody }])
    []

/-- Lines 109-117: the request data of a page. -/
def buildRequestData (issues : List Issue) : PiiEntityRecognitionRequest :=
  { Kind := "PiiEntityRecognition"
    AnalysisInput := { Documents := buildDocuments issues }
    Parameters := { Domain := "phi" } }

/-- Line 125: the URL the request goes to. -/
def serviceEndpoint (w : World) : String :=
  w.endpoint ++ "/language/:analyze-text?api-version=2022-05-01"

/-- Lines 155-179: the loop over the documents of a response.  The result is
what was printed and whether the loop left `main` through the `return` of
line 175. -/
def reportDocuments (w : World) (confidenceThreshold : Float64) :
    List DocumentResponse → List Event × Bool
  | [] => ([], false)
  | doc :: rest =>
    let entities := filterEntities confidenceThreshold doc.Entities
    if entities.length > 0 then
      let result : Result := { ID := doc.ID, Redacted := doc.RedactedText, Entities := entities }
      match jsonMarshalIndent w result "" "  " with
      | .error err => ([Event.printError "Error marshalling result:" err], true)
      | .ok resultBytes =>
        let r := reportDocuments w confidenceThreshold rest
        (Event.printResult result resultBytes :: r.1, r.2)
    else reportDocuments w confidenceThreshold rest

/-- How one pass through the body of the `for` loop ends. -/
inductive Outcome where
  | returned
  | broke
  | next
deriving DecidableEq, Repr

/-- One pass through the body of the `for` loop: its events, how it ends, and
the response bodies whose `Close` it deferred. -/
structure Iteration where
  events : List Event
  outcome : Outcome
  deferred : List Nat
deriving DecidableEq, Repr

/-- Lines 87-183 with `page` as it is when the pass starts.  The `page++` of
line 98 is the `page + 1` of `mainLoop`: only a pass that got beyond it is
followed by another one. -/
def iteration (w : World) (confidenceThreshold : Float64) (page : Nat) : Iteration :=
  let opts : IssueListByRepoOptions := { State := "all", PerPage := 5, Page := page }
  let fetch := Event.listByRepo w.owner w.repo opts
  match w.listByRepo w.owner w.repo opts with
  | .error err => ⟨[fetch, .printError "Error getting issues:" err], .returned, []⟩
  | .ok (issues, res) =>
    let requestData := buildRequestData issues
    match jsonMarshal w requestData with
    | .error err => ⟨[fetch, .printError "Error marshalling request data:" err], .returned, []⟩
    | .ok requestBytes =>
      match httpNewRequest w "POST" (serviceEndpoint w) requestBytes with
      | .error err => ⟨[fetch, .printError "Error creating request:" err], .returned, []⟩
      | .ok req0 =>
        let req := (req0.addHeader "Ocp-Apim-Subscription-Key" w.key).addHeader
          "Content-Type" "application/json"
        match w.clientDo page req with
        | .error err =>
          ⟨[fetch, .clientDo req, .printError "Error executing request:" err], .returned, []⟩
        | .ok resp =>
          -- defer resp.Body.Close()
          match ioReadAll resp.Body with
          | .error err =>
            ⟨[fetch, .clientDo req, .bodyOpen page,
              .printError "Error reading response body:" err], .returned, [page]⟩
          | .ok responseBody =>
            match jsonUnmarshal w responseBody with
            | .error err =>
              ⟨[fetch, .clientDo req, .bodyOpen page,
                .printError "Error unmarshalling response body:" err], .returned, [page]⟩
            | .ok textResponse =>
              let report := reportDocuments w confidenceThreshold textResponse.Results.Documents
              ⟨[fetch, .clientDo req, .bodyOpen page] ++ report.1,
                if report.2 then .returned else if res.NextPage = 0 then .broke else .next,
                [page]⟩

/-- The deferred calls run when `main` returns, last deferred first. -/
def runDeferred (deferred : List Nat) : List Event :=
  deferred.map Event.bodyClose

/-- The `for` loop of lines 86-184 followed by the return of `main`.  `deferred`
is the stack of deferred `Close` calls, the latest on top; `fuel` bounds the
number of passes, and `none` means that the bound was reached. -/
def mainLoop (w : World) (confidenceThreshold : Float64) :
    Nat → Nat → List Nat → Option (List Event)
  | 0, _, _ => none
  | fuel + 1, page, deferred =>
    let it := iteration w confidenceThreshold page
    match it.outcome with
    | .next =>
      (mainLoop w confidenceThreshold fuel (page + 1) (it.deferred ++ deferred)).map
        (fun rest => it.events ++ rest)
    | .broke => some (it.events ++ runDeferred (it.deferred ++ deferred))
    | .returned => some (it.events ++ runDeferred (it.deferred ++ deferred))

/-- The function `main`: the trace of a run that ends within `fuel` passes of
the loop.  Lines 77-79 build the clients and touch no network. -/
def main (w : World) (fuel : Nat) : Option (List Event) :=
  match w.parseFloat w.confidence with
  | .error err => some [Event.printError "Error parsing confidence score threshold:" err]
  | .ok confidenceThreshold => mainLoop w confidenceThreshold fuel 0 []

/-! ## Reading a trace -/

/-- The issue fetches of a trace. -/
def fetches (trace : List Event) : List Nat :=
  trace.filterMap (fun e => match e with
    | .listByRepo _ _ opts => some opts.Page
    | _ => none)

/-- The analysis requests of a trace. -/
def requests (trace : List Event) : List HttpRequest :=
  trace.filterMap (fun e => match e with
    | .clientDo req => some req
    | _ => none)

/-- The result objects of a trace. -/
def outputs (trace : List Event) : List Result :=
  trace.filterMap (fun e => match e with
    | .printResult result _ => some result
    | _ => none)

/-- The error messages of a trace. -/
def errors (trace : List Event) : List (String × String) :=
  trace.filterMap (fun e => match e with
    | .printError msg err => some (msg, err)
    | _ => none)

/-- The response bodies that are open after a trace. -/
def openBodies (trace : List Event) : List Nat :=
  trace.foldl (fun bodies e => match e with
    | .bodyOpen k => bodies ++ [k]
    | .bodyClose k => bodies.filter (fun j => j != k)
    | _ => bodies) []

/-- The response bodies that are open at each issue fetch of a trace, that is
at the start of each pass of the loop. -/
def openAtFetches (trace : List Event) : List (List Nat) :=
  (List.range trace.length).filterMap (fun i =>
    match trace.get? i with
    | some (.listByRepo _ _ _) => some (openBodies (trace.take i))
    | _ => none)

/-- The largest number of response bodies open at once during a trace. -/
def maxOpenBodies (trace : List Event) : Nat :=
  ((List.range (trace.length + 1)).map (fun i => (openBodies (trace.take i)).length)).foldl max 0

/-! ## What the specification expects -/

/-- The HTTP request that lines 119-133 build for a page of issues. -/
def specRequest (w : World) (issues : List Issue) : HttpRequest :=
  { Method := "POST"
    URL := serviceEndpoint w
    Header := [("Ocp-Apim-Subscription-Key", w.key), ("Content-Type", "application/json")]
    Body := w.encodeRequest (buildRequestData issues) }

/-- The pass for `page` gets as far as a decoded response: the issue listing
answers `issues` and `res`, the request is created, the service answers `resp`,
and the body of `resp` reads and decodes to `textResponse`. -/
def Decodes (w : World) (page : Nat) (issues : List Issue) (res : Response)
    (resp : HttpResponse) (textResponse : PiiEntityRecognitionResults) : Prop :=
  w.listByRepo w.owner w.repo { State := "all", PerPage := 5, Page := page } = .ok (issues, res) ∧
  w.urlError (serviceEndpoint w) = none ∧
  w.clientDo page (specRequest w issues) = .ok resp ∧
  ∃ responseBody, resp.Body = .ok responseBody ∧ jsonUnmarshal w responseBody = .ok textResponse

/-- The kept-entity sequence of a response document in the words of the
specification: the entities whose score is at least the threshold. -/
def specKept (threshold : Float64) (doc : DocumentResponse) : List Entity :=
  doc.Entities.filter (fun e => e.ConfidenceScore.ge threshold)

/-- The result object that the specification expects for a response document:
none when nothing is kept. -/
def specOutput (threshold : Float64) (doc : DocumentResponse) : Option Result :=
  if specKept threshold doc = [] then none
  else some { ID := doc.ID, Redacted := doc.RedactedText, Entities := specKept threshold doc }

/-- What the specification expects on standard output for a response document. -/
def specEmit (w : World) (threshold : Float64) (doc : DocumentResponse) : List Event :=
  match specOutput threshold doc with
  | none => []
  | some result => [Event.printResult result (w.encodeIndent result "" "  ")]

/-- The events of `n` consecutive passes of the loop, the first one for `page`. -/
def passes (w : World) (confidenceThreshold : Float64) : Nat → Nat → List Event
  | 0, _ => []
  | n + 1, page => (iteration w confidenceThreshold page).events ++
      passes w confidenceThreshold n (page + 1)

/-- The same world with every status code of the analysis service replaced. -/
def World.withStatus (w : World) (code : Nat → HttpRequest → Int) : World :=
  { w with clientDo := fun i req =>
      match w.clientDo i req with
      | .ok resp => .ok { resp with StatusCode := code i req }
      | .error err => .error err }

/-! ## Stubs -/

/-- A stub of `strconv.ParseFloat` that knows two literals. -/
def stubParseFloat (s : String) : Except String Float64 :=
  if s = "0.8" then .ok f64_0_8
  else if s = "0.5" then .ok f64_0_5
  else .error "strconv.ParseFloat: invalid syntax"

/-- A stub of the JSON decoder: a table of the bodies it accepts. -/
def stubDecode (table : List (String × PiiEntityRecognitionResults)) (data : String) :
    Except String PiiEntityRecognitionResults :=
  match table.lookup data with
  | some v => .ok v
  | none => .error "unexpected end of JSON input"

/-- A stubbed world: the threshold string, the pages of the issue source with
their next-page numbers, the answers of the analysis service in the order of
the calls, and the bodies that decode. -/
def stubWorld (confidence : String) (pages : List (List Issue × Int))
    (replies : List HttpResponse) (table : List (String × PiiEntityRecognitionResults)) : World :=
  { endpoint := "https://example.cognitiveservices.azure.com"
    key := "secret"
    owner := "o"
    repo := "r"
    confidence := confidence
    parseFloat := stubParseFloat
    listByRepo := fun _ _ opts =>
      match pages.get? opts.Page with
      | some (issues, next) => .ok (issues, { NextPage := next })
      | none => .error "404 Not Found"
    encodeRequest := fun v => String.intercalate "," (v.AnalysisInput.Documents.map (fun d => d.ID))
    urlError := fun _ => none
    clientDo := fun i _ =>
      match replies.get? i with
      | some resp => .ok resp
      | none => .error "connection refused"
    decode := stubDecode table
    encodeIndent := fun v _ _ => v.ID }

/-- An issue with a URL and a body. -/
def issue1 : Issue := { HTMLURL := some "https://github.com/o/r/issues/1", Body := some "call Jane" }

/-- A second issue. -/
def issue2 : Issue := { HTMLURL := some "https://github.com/o/r/issues/2", Body := some "no names" }

/-- An entity with score 0.9. -/
def entityHigh : Entity :=
  { Text := "Jane", Category := "Person", Offset := 5, Length := 4, ConfidenceScore := f64_0_9 }

/-- An entity with score 0.8. -/
def entityEdge : Entity :=
  { Text := "call", Category := "Event", Offset := 0, Length := 4, ConfidenceScore := f64_0_8 }

/-- An entity with score 0.79999. -/
def entityLow : Entity :=
  { Text := "ane", Category := "Person", Offset := 6, Length := 3, ConfidenceScore := f64_0_79999 }

/-- A response for `issue1` and `issue2` that echoes their URLs. -/
def echoResults : PiiEntityRecognitionResults :=
  { Kind := "PiiEntityRecognitionResults"
    Results :=
      { Documents :=
          [ { RedactedText := "**** ****", ID := "https://github.com/o/r/issues/1",
              Entities := [entityLow, entityHigh, entityEdge], Warnings := [] },
            { RedactedText := "no names", ID := "https://github.com/o/r/issues/2",
              Entities := [entityLow], Warnings := [] } ]
        Errors := []
        ModelVersion := "2023-04-15" } }

/-- A response whose only document carries an id of its own. -/
def foreignResults : PiiEntityRecognitionResults :=
  { Kind := "PiiEntityRecognitionResults"
    Results :=
      { Documents :=
          [ { RedactedText := "call ****", ID := "7", Entities := [entityHigh], Warnings := [] } ]
        Errors := []
        ModelVersion := "2023-04-15" } }

/-- What an error payload of the service decodes to: every field at its zero value. -/
def emptyResults : PiiEntityRecognitionResults :=
  { Kind := "", Results := { Documents := [], Errors := [], ModelVersion := "" } }

/-- The bodies that the stubbed decoder accepts. -/
def stubTable : List (String × PiiEntityRecognitionResults) :=
  [("echo", echoResults), ("foreign", foreignResults), ("error payload", emptyResults)]

/-- One page, no next page, a response that echoes the ids. -/
def worldOnePage : World :=
  stubWorld "0.8" [([issue1, issue2], 0)] [{ StatusCode := 200, Body := .ok "echo" }] stubTable

/-- One page, no next page, a response with an id of its own. -/
def worldForeignId : World :=
  stubWorld "0.8" [([issue1], 0)] [{ StatusCode := 200, Body := .ok "foreign" }] stubTable

/-- One empty page, no next page. -/
def worldEmptyPage : World :=
  stubWorld "0.8" [([], 0)] [{ StatusCode := 200, Body := .ok "error payload" }] stubTable

/-- Pages 0 and 1 report a next page, page 2 does not. -/
def worldThreePages : World :=
  stubWorld "0.8" [([issue1], 2), ([issue2], 3), ([], 0)]
    [{ StatusCode := 200, Body := .ok "foreign" }, { StatusCode := 200, Body := .ok "echo" },
     { StatusCode := 200, Body := .ok "error payload" }] stubTable

/-- Page 0 reports a next page, page 1 does not. -/
def worldTwoPages : World :=
  stubWorld "0.8" [([issue1], 2), ([issue2], 0)]
    [{ StatusCode := 200, Body := .ok "foreign" }, { StatusCode := 200, Body := .ok "echo" }]
    stubTable

/-- The threshold is not a number. -/
def worldBadThreshold : World :=
  stubWorld "high" [([issue1], 0)] [{ StatusCode := 200, Body := .ok "echo" }] stubTable

/-- The body of the answer for page 1 is cut short. -/
def worldTruncated : World :=
  stubWorld "0.8" [([issue1], 2), ([issue2], 3), ([], 0)]
    [{ StatusCode := 200, Body := .ok "foreign" }, { StatusCode := 200, Body := .ok "\"kind" },
     { StatusCode := 200, Body := .ok "echo" }] stubTable

/-- The service answers 401 with an error payload; the page reports a next page. -/
def worldUnauthorized : World :=
  stubWorld "0.8" [([issue1], 2), ([issue2], 0)]
    [{ StatusCode := 401, Body := .ok "error payload" }, { StatusCode := 200, Body := .ok "echo" }]
    stubTable

/-! ## Theorems -/

theorem foldl_append_if {α : Type} (p : α → Bool) (xs acc : List α) :
    xs.foldl (fun out x => if p x then out ++ [x] else out) acc = acc ++ xs.filter p := by
  induction xs generalizing acc with
  | nil => simp
  | cons x xs ih =>
    simp only [List.foldl_cons, ih, List.filter_cons]
    by_cases h : p x = true <;> simp [h]

theorem filterEntities_eq_filter (t : Float64) (es : List Entity) :
    filterEntities t es = es.filter (fun e => e.ConfidenceScore.ge t) := by
  unfold filterEntities
  rw [foldl_append_if (fun e : Entity => e.ConfidenceScore.ge t)]
  simp

theorem Float64.ge_of_eq (a b : Float64) (h : a.eq b = true) : a.ge b = true := by
  simp only [Float64.eq, Float64.ge, Bool.and_eq_true, decide_eq_true_eq] at h ⊢
  exact ⟨h.1, by omega⟩

/-- C1: the entity filter of `main` keeps an entity of a result document exactly
when its score is `>=` the threshold; a score equal to the threshold is kept
(threshold 0.8: score 0.8 is kept, score 0.79999 is dropped). -/
theorem filter_keeps_iff_score_ge_threshold (t : Float64) (d : DocumentResponse) :
    filterEntities t d.Entities = d.Entities.filter (fun E => E.ConfidenceScore.ge t) ∧
    (∀ E, E ∈ filterEntities t d.Entities ↔ E ∈ d.Entities ∧ E.ConfidenceScore.ge t = true) ∧
    (∀ E, E ∈ d.Entities ∧ E.ConfidenceScore.eq t = true → E ∈ filterEntities t d.Entities) ∧
    filterEntities f64_0_8 [entityLow, entityEdge, entityLow] = [entityEdge] ∧
    f64_0_8.ge f64_0_8 = true ∧ f64_0_79999.ge f64_0_8 = false := by
  refine ⟨filterEntities_eq_filter t d.Entities, ?_, ?_, by decide, by decide, by decide⟩
  · intro E
    rw [filterEntities_eq_filter]
    simp [List.mem_filter]
  · intro E h
    rw [filterEntities_eq_filter]
    simp only [List.mem_filter]
    exact ⟨h.1, Float64.ge_of_eq _ _ h.2⟩

/-- Witness of C1 on a document with one entity below, one above and one at the
threshold 0.8. -/
theorem filter_keeps_iff_score_ge_threshold_witness :
    filterEntities f64_0_8 [entityLow, entityHigh, entityEdge] = [entityHigh, entityEdge] :=
  (filter_keeps_iff_score_ge_threshold f64_0_8
    { RedactedText := "", ID := "", Entities := [entityLow, entityHigh, entityEdge],
      Warnings := [] }).1.trans (by decide)

/-- A NaN threshold keeps nothing: every comparison with NaN is false. -/
theorem filterEntities_nan_threshold (es : List Entity) : filterEntities f64_NaN es = [] := by
  rw [filterEntities_eq_filter, List.filter_eq_nil_iff]
  intro e _
  have : f64_NaN.isNaN = true := by decide
  simp [Float64.ge, this]

theorem specKept_finite (t : Float64) (doc : DocumentResponse)
    (h : doc.Entities.all (fun e => e.ConfidenceScore.isFinite) = true) :
    (specKept t doc).all (fun e => e.ConfidenceScore.isFinite) = true := by
  simp only [specKept, List.all_eq_true, List.mem_filter] at h ⊢
  intro e he
  exact h e he.1

theorem reportDocuments_finite (w : World) (t : Float64) (docs : List DocumentResponse)
    (h : docs.all (fun d => d.Entities.all (fun e => e.ConfidenceScore.isFinite)) = true) :
    reportDocuments w t docs = (docs.flatMap (specEmit w t), false) := by
  induction docs with
  | nil => rfl
  | cons doc rest ih =>
    rw [List.all_cons, Bool.and_eq_true] at h
    have hk := specKept_finite t doc h.1
    have ih := ih h.2
    by_cases hne : specKept t doc = []
    · simp [reportDocuments, filterEntities_eq_filter, specEmit, specOutput, ih,
        show List.filter (fun e => e.ConfidenceScore.ge t) doc.Entities = [] from hne, hne]
    · have hpos : (List.filter (fun e => e.ConfidenceScore.ge t) doc.Entities).length > 0 :=
        List.length_pos.mpr hne
      have hk2 : (List.filter (fun e => e.ConfidenceScore.ge t) doc.Entities).all
          (fun e => e.ConfidenceScore.isFinite) = true := hk
      simp only [reportDocuments, filterEntities_eq_filter, hpos, if_true, jsonMarshalIndent,
        hk2, ih, List.flatMap_cons, specEmit, specOutput, hne, if_false]
      rfl

theorem jsonUnmarshal_finite (w : World) (data : String) (v : PiiEntityRecognitionResults)
    (h : jsonUnmarshal w data = .ok v) :
    v.Results.Documents.all (fun d => d.Entities.all (fun e => e.ConfidenceScore.isFinite)) = true := by
  unfold jsonUnmarshal at h
  split at h
  · cases h
  · rename_i v0 _
    by_cases hf : v0.scoresFinite = true
    · rw [if_pos hf] at h
      cases h
      exact hf
    · rw [if_neg hf] at h
      cases h

theorem iteration_of_decodes (w : World) (t : Float64) (page : Nat) (issues : List Issue)
    (res : Response) (resp : HttpResponse) (r : PiiEntityRecognitionResults)
    (h : Decodes w page issues res resp r) :
    iteration w t page =
      ⟨[Event.listByRepo w.owner w.repo { State := "all", PerPage := 5, Page := page },
        Event.clientDo (specRequest w issues), Event.bodyOpen page] ++
          r.Results.Documents.flatMap (specEmit w t),
        if res.NextPage = 0 then Outcome.broke else Outcome.next, [page]⟩ := by
  obtain ⟨h1, h2, h3, body, h4, h5⟩ := h
  have hrep := reportDocuments_finite w t _ (jsonUnmarshal_finite w body r h5)
  have h3b : w.clientDo page
      { Method := "POST", URL := serviceEndpoint w,
        Header := [("Ocp-Apim-Subscription-Key", w.key), ("Content-Type", "application/json")],
        Body := w.encodeRequest (buildRequestData issues) } = .ok resp := h3
  simp [iteration, h1, jsonMarshal, httpNewRequest, h2, HttpRequest.addHeader, h3b, ioReadAll,
    h4, h5, hrep, specRequest]

/-! ### Reading the events of a pass -/

theorem fetches_append (a b : List Event) : fetches (a ++ b) = fetches a ++ fetches b := by
  simp [fetches, List.filterMap_append]

theorem requests_append (a b : List Event) : requests (a ++ b) = requests a ++ requests b := by
  simp [requests, List.filterMap_append]

theorem outputs_append (a b : List Event) : outputs (a ++ b) = outputs a ++ outputs b := by
  simp [outputs, List.filterMap_append]

theorem errors_append (a b : List Event) : errors (a ++ b) = errors a ++ errors b := by
  simp [errors, List.filterMap_append]

theorem fetches_runDeferred (d : List Nat) : fetches (runDeferred d) = [] := by
  simp [fetches, runDeferred]

theorem requests_runDeferred (d : List Nat) : requests (runDeferred d) = [] := by
  simp [requests, runDeferred]

theorem outputs_runDeferred (d : List Nat) : outputs (runDeferred d) = [] := by
  simp [outputs, runDeferred]

theorem errors_runDeferred (d : List Nat) : errors (runDeferred d) = [] := by
  simp [errors, runDeferred]

theorem specEmit_cases (w : World) (t : Float64) (doc : DocumentResponse) :
    specEmit w t doc = [] ∨ ∃ text, specEmit w t doc =
      [Event.printResult ⟨doc.ID, doc.RedactedText, specKept t doc⟩ text] := by
  unfold specEmit specOutput
  by_cases h : specKept t doc = []
  · left; simp [h]
  · right; simp [h]

theorem fetches_specEmit (w : World) (t : Float64) (docs : List DocumentResponse) :
    fetches (docs.flatMap (specEmit w t)) = [] := by
  induction docs with
  | nil => rfl
  | cons doc rest ih =>
    rw [List.flatMap_cons, fetches_append, ih]
    rcases specEmit_cases w t doc with h | ⟨text, h⟩ <;> simp [h, fetches]

theorem requests_specEmit (w : World) (t : Float64) (docs : List DocumentResponse) :
    requests (docs.flatMap (specEmit w t)) = [] := by
  induction docs with
  | nil => rfl
  | cons doc rest ih =>
    rw [List.flatMap_cons, requests_append, ih]
    rcases specEmit_cases w t doc with h | ⟨text, h⟩ <;> simp [h, requests]

theorem errors_specEmit (w : World) (t : Float64) (docs : List DocumentResponse) :
    errors (docs.flatMap (specEmit w t)) = [] := by
  induction docs with
  | nil => rfl
  | cons doc rest ih =>
    rw [List.flatMap_cons, errors_append, ih]
    rcases specEmit_cases w t doc with h | ⟨text, h⟩ <;> simp [h, errors]

theorem outputs_specEmit (w : World) (t : Float64) (docs : List DocumentResponse) :
    outputs (docs.flatMap (specEmit w t)) = docs.filterMap (specOutput t) := by
  induction docs with
  | nil => rfl
  | cons doc rest ih =>
    rw [List.flatMap_cons, outputs_append, ih]
    by_cases h : specKept t doc = [] <;> simp [specEmit, specOutput, h, outputs, List.filterMap_cons]

theorem fetches_of_decodes (w : World) (t : Float64) (page : Nat) (issues : List Issue)
    (res : Response) (resp : HttpResponse) (r : PiiEntityRecognitionResults)
    (h : Decodes w page issues res resp r) : fetches (iteration w t page).events = [page] := by
  rw [iteration_of_decodes w t page issues res resp r h]
  simp only [fetches_append, fetches_specEmit]
  rfl

theorem requests_of_decodes (w : World) (t : Float64) (page : Nat) (issues : List Issue)
    (res : Response) (resp : HttpResponse) (r : PiiEntityRecognitionResults)
    (h : Decodes w page issues res resp r) :
    requests (iteration w t page).events = [specRequest w issues] := by
  rw [iteration_of_decodes w t page issues res resp r h]
  simp only [requests_append, requests_specEmit]
  rfl

theorem errors_of_decodes (w : World) (t : Float64) (page : Nat) (issues : List Issue)
    (res : Response) (resp : HttpResponse) (r : PiiEntityRecognitionResults)
    (h : Decodes w page issues res resp r) : errors (iteration w t page).events = [] := by
  rw [iteration_of_decodes w t page issues res resp r h]
  simp only [errors_append, errors_specEmit]
  rfl

theorem outputs_of_decodes (w : World) (t : Float64) (page : Nat) (issues : List Issue)
    (res : Response) (resp : HttpResponse) (r : PiiEntityRecognitionResults)
    (h : Decodes w page issues res resp r) :
    outputs (iteration w t page).events = r.Results.Documents.filterMap (specOutput t) := by
  rw [iteration_of_decodes w t page issues res resp r h]
  simp only [outputs_append, outputs_specEmit]
  rfl

theorem outcome_of_decodes (w : World) (t : Float64) (page : Nat) (issues : List Issue)
    (res : Response) (resp : HttpResponse) (r : PiiEntityRecognitionResults)
    (h : Decodes w page issues res resp r) :
    (iteration w t page).outcome = (if res.NextPage = 0 then Outcome.broke else Outcome.next) ∧
    (iteration w t page).deferred = [page] := by
  rw [iteration_of_decodes w t page issues res resp r h]
  exact ⟨rfl, rfl⟩

/-! ### The loop -/

theorem mainLoop_passes (w : World) (t : Float64) (n : Nat) :
    ∀ (fuel page : Nat) (deferred : List Nat),
      (∀ i, i < n → (iteration w t (page + i)).outcome = Outcome.next ∧
        (iteration w t (page + i)).deferred = [page + i]) →
      mainLoop w t (n + fuel) page deferred =
        (mainLoop w t fuel (page + n) ((List.range' page n).reverse ++ deferred)).map
          (fun rest => passes w t n page ++ rest) := by
  induction n with
  | zero =>
    intro fuel page deferred _
    simp [passes]
  | succ n ih =>
    intro fuel page deferred h
    have h0 := h 0 (Nat.succ_pos n)
    rw [Nat.add_zero] at h0
    have hrest : ∀ i, i < n → (iteration w t (page + 1 + i)).outcome = Outcome.next ∧
        (iteration w t (page + 1 + i)).deferred = [page + 1 + i] := by
      intro i hi
      have := h (i + 1) (Nat.succ_lt_succ hi)
      rwa [show page + (i + 1) = page + 1 + i by omega] at this
    have hfuel : n + 1 + fuel = (n + fuel) + 1 := by omega
    rw [hfuel, mainLoop]
    simp only [h0.1, h0.2]
    rw [ih fuel (page + 1) ([page] ++ deferred) hrest]
    rw [show page + 1 + n = page + (n + 1) by omega]
    simp [passes, List.range'_succ, Option.map_map, Function.comp_def]

theorem mainLoop_stop (w : World) (t : Float64) (fuel page : Nat) (deferred : List Nat)
    (h : (iteration w t page).outcome ≠ Outcome.next) :
    mainLoop w t (fuel + 1) page deferred =
      some ((iteration w t page).events ++
        runDeferred ((iteration w t page).deferred ++ deferred)) := by
  rw [mainLoop]
  cases ho : (iteration w t page).outcome with
  | next => exact absurd ho h
  | broke => rfl
  | returned => rfl

theorem fetches_passes (w : World) (t : Float64) (n : Nat) :
    ∀ page : Nat,
      (∀ i, i < n → ∃ issues res resp r, Decodes w (page + i) issues res resp r) →
      fetches (passes w t n page) = List.range' page n := by
  induction n with
  | zero => intro page _; rfl
  | succ n ih =>
    intro page h
    obtain ⟨issues, res, resp, r, h0⟩ := h 0 (Nat.succ_pos n)
    rw [Nat.add_zero] at h0
    have hrest : ∀ i, i < n → ∃ issues res resp r, Decodes w (page + 1 + i) issues res resp r := by
      intro i hi
      have := h (i + 1) (Nat.succ_lt_succ hi)
      rwa [show page + (i + 1) = page + 1 + i by omega] at this
    rw [passes, fetches_append, fetches_of_decodes w t page issues res resp r h0, ih (page + 1) hrest]
    simp [List.range'_succ]

theorem requests_passes (w : World) (t : Float64) (n : Nat) :
    ∀ page : Nat,
      (∀ i, i < n → ∃ issues res resp r, Decodes w (page + i) issues res resp r) →
      (requests (passes w t n page)).length = n := by
  induction n with
  | zero => intro page _; rfl
  | succ n ih =>
    intro page h
    obtain ⟨issues, res, resp, r, h0⟩ := h 0 (Nat.succ_pos n)
    rw [Nat.add_zero] at h0
    have hrest : ∀ i, i < n → ∃ issues res resp r, Decodes w (page + 1 + i) issues res resp r := by
      intro i hi
      have := h (i + 1) (Nat.succ_lt_succ hi)
      rwa [show page + (i + 1) = page + 1 + i by omega] at this
    rw [passes, requests_append, requests_of_decodes w t page issues res resp r h0,
      List.length_append, ih (page + 1) hrest]
    simp [Nat.add_comm]

theorem errors_passes (w : World) (t : Float64) (n : Nat) :
    ∀ page : Nat,
      (∀ i, i < n → ∃ issues res resp r, Decodes w (page + i) issues res resp r) →
      errors (passes w t n page) = [] := by
  induction n with
  | zero => intro page _; rfl
  | succ n ih =>
    intro page h
    obtain ⟨issues, res, resp, r, h0⟩ := h 0 (Nat.succ_pos n)
    rw [Nat.add_zero] at h0
    have hrest : ∀ i, i < n → ∃ issues res resp r, Decodes w (page + 1 + i) issues res resp r := by
      intro i hi
      have := h (i + 1) (Nat.succ_lt_succ hi)
      rwa [show page + (i + 1) = page + 1 + i by omega] at this
    rw [passes, errors_append, errors_of_decodes w t page issues res resp r h0, ih (page + 1) hrest]
    rfl

theorem outputs_passes (w : World) (t : Float64) (rs : Nat → PiiEntityRecognitionResults)
    (n : Nat) :
    ∀ page : Nat,
      (∀ i, i < n → ∃ issues res resp, Decodes w (page + i) issues res resp (rs (page + i))) →
      outputs (passes w t n page) =
        (List.range' page n).flatMap (fun i => (rs i).Results.Documents.filterMap (specOutput t)) := by
  induction n with
  | zero => intro page _; rfl
  | succ n ih =>
    intro page h
    obtain ⟨issues, res, resp, h0⟩ := h 0 (Nat.succ_pos n)
    rw [Nat.add_zero] at h0
    have hrest : ∀ i, i < n →
        ∃ issues res resp, Decodes w (page + 1 + i) issues res resp (rs (page + 1 + i)) := by
      intro i hi
      have := h (i + 1) (Nat.succ_lt_succ hi)
      rwa [show page + (i + 1) = page + 1 + i by omega] at this
    rw [passes, outputs_append, outputs_of_decodes w t page issues res resp _ h0,
      ih (page + 1) hrest]
    simp [List.range'_succ]

theorem next_of_decodes (w : World) (t : Float64) (n page : Nat)
    (h : ∀ i, i < n → ∃ issues res resp r,
      Decodes w (page + i) issues res resp r ∧ res.NextPage ≠ 0) :
    ∀ i, i < n → (iteration w t (page + i)).outcome = Outcome.next ∧
      (iteration w t (page + i)).deferred = [page + i] := by
  intro i hi
  obtain ⟨issues, res, resp, r, hd, hn⟩ := h i hi
  have := outcome_of_decodes w t (page + i) issues res resp r hd
  rw [if_neg hn] at this
  exact this

/-- A run whose first `n` pages decode and report a next page, and whose page
`n` decodes and reports none, ends after `n + 1` passes. -/
theorem mainLoop_of_pages (w : World) (t : Float64) (n fuel : Nat)
    (hprev : ∀ i, i < n → ∃ issues res resp r,
      Decodes w i issues res resp r ∧ res.NextPage ≠ 0)
    (hlast : ∃ issues res resp r, Decodes w n issues res resp r ∧ res.NextPage = 0) :
    mainLoop w t (n + (fuel + 1)) 0 [] =
      some (passes w t (n + 1) 0 ++ runDeferred (List.range' 0 (n + 1)).reverse) := by
  have hprev0 : ∀ i, i < n → ∃ issues res resp r,
      Decodes w (0 + i) issues res resp r ∧ res.NextPage ≠ 0 := by
    intro i hi
    rw [Nat.zero_add]
    exact hprev i hi
  obtain ⟨issues, res, resp, r, hd, hn⟩ := hlast
  have hout := outcome_of_decodes w t n issues res resp r hd
  rw [if_pos hn] at hout
  rw [mainLoop_passes w t n (fuel + 1) 0 [] (next_of_decodes w t n 0 hprev0), Nat.zero_add,
    mainLoop_stop w t fuel n _ (by rw [hout.1]; decide), hout.2]
  have hp : ∀ (k page : Nat), passes w t (k + 1) page =
      passes w t k page ++ (iteration w t (page + k)).events := by
    intro k
    induction k with
    | zero => intro page; simp [passes]
    | succ k ih =>
      intro page
      rw [passes, ih (page + 1), passes, List.append_assoc,
        show page + 1 + k = page + (k + 1) by omega]
  rw [hp n 0, Nat.zero_add]
  simp [List.range'_concat]

/-! ### Output per document -/

theorem specEmit_eq (w : World) (t : Float64) :
    specEmit w t = fun doc =>
      if doc.Entities.filter (fun E => E.ConfidenceScore.ge t) = [] then []
      else [Event.printResult
        ⟨doc.ID, doc.RedactedText, doc.Entities.filter (fun E => E.ConfidenceScore.ge t)⟩
        (w.encodeIndent
          ⟨doc.ID, doc.RedactedText, doc.Entities.filter (fun E => E.ConfidenceScore.ge t)⟩
          "" "  ")] := by
  funext doc
  by_cases h : doc.Entities.filter (fun E => E.ConfidenceScore.ge t) = []
  · simp [specEmit, specOutput, specKept, h]
  · simp [specEmit, specOutput, specKept, h]

theorem length_filterMap_specOutput (t : Float64) (docs : List DocumentResponse) :
    (docs.filterMap (specOutput t)).length =
      docs.countP (fun doc => doc.Entities.any (fun E => E.ConfidenceScore.ge t)) := by
  induction docs with
  | nil => rfl
  | cons doc rest ih =>
    by_cases h : specKept t doc = []
    · have hany : doc.Entities.any (fun E => E.ConfidenceScore.ge t) = false := by
        rw [specKept, List.filter_eq_nil_iff] at h
        rw [List.any_eq_false]
        exact h
      simp [List.filterMap_cons, specOutput, h, List.countP_cons, hany, ih]
    · have hany : doc.Entities.any (fun E => E.ConfidenceScore.ge t) = true := by
        rw [specKept, List.filter_eq_nil_iff] at h
        rw [List.any_eq_true]
        push_neg at h
        obtain ⟨E, hE, hge⟩ := h
        exact ⟨E, hE, hge⟩
      simp [List.filterMap_cons, specOutput, h, List.countP_cons, hany, ih]

/-- C2: for every document of a decoded response, the pass prints exactly one
result object when some entity of the document has a score `>=` the threshold,
and prints nothing for it otherwise (in particular when it has no entities or
all of them are below the threshold). -/
theorem one_output_per_document_with_kept_entities (w : World) (t : Float64) (page : Nat)
    (issues : List Issue) (res : Response) (resp : HttpResponse)
    (r : PiiEntityRecognitionResults) (h : Decodes w page issues res resp r) :
    (iteration w t page).events =
      [Event.listByRepo w.owner w.repo { State := "all", PerPage := 5, Page := page },
        Event.clientDo (specRequest w issues), Event.bodyOpen page] ++
      r.Results.Documents.flatMap (fun doc =>
        if doc.Entities.filter (fun E => E.ConfidenceScore.ge t) = [] then []
        else [Event.printResult
          ⟨doc.ID, doc.RedactedText, doc.Entities.filter (fun E => E.ConfidenceScore.ge t)⟩
          (w.encodeIndent
            ⟨doc.ID, doc.RedactedText, doc.Entities.filter (fun E => E.ConfidenceScore.ge t)⟩
            "" "  ")]) ∧
    (outputs (iteration w t page).events).length =
      r.Results.Documents.countP (fun doc => doc.Entities.any (fun E => E.ConfidenceScore.ge t)) ∧
    ((∀ doc ∈ r.Results.Documents, ∀ E ∈ doc.Entities, E.ConfidenceScore.ge t = false) →
      outputs (iteration w t page).events = []) ∧
    errors (iteration w t page).events = [] := by
  refine ⟨?_, ?_, ?_, errors_of_decodes w t page issues res resp r h⟩
  · rw [iteration_of_decodes w t page issues res resp r h, specEmit_eq]
  · rw [outputs_of_decodes w t page issues res resp r h, length_filterMap_specOutput]
  · intro hlow
    have hlen := length_filterMap_specOutput t r.Results.Documents
    rw [outputs_of_decodes w t page issues res resp r h]
    apply List.eq_nil_of_length_eq_zero
    rw [hlen, List.countP_eq_zero]
    intro doc hdoc
    simp only [List.any_eq_true, not_exists, not_and, Bool.not_eq_true]
    intro E hE
    exact hlow doc hdoc E hE

/-- Witness of C2 in the one-page stub: two documents, one with kept entities. -/
theorem one_output_per_document_witness :
    (iteration worldOnePage f64_0_8 0).events =
      [Event.listByRepo "o" "r" { State := "all", PerPage := 5, Page := 0 },
        Event.clientDo (specRequest worldOnePage [issue1, issue2]), Event.bodyOpen 0,
        Event.printResult
          ⟨"https://github.com/o/r/issues/1", "**** ****", [entityHigh, entityEdge]⟩
          "https://github.com/o/r/issues/1"] ∧
    (outputs (iteration worldOnePage f64_0_8 0).events).length = 1 :=
  ⟨(one_output_per_document_with_kept_entities worldOnePage f64_0_8 0 [issue1, issue2] ⟨0⟩
      { StatusCode := 200, Body := .ok "echo" } echoResults ⟨rfl, rfl, rfl, _, rfl, rfl⟩).1.trans
      (by decide),
    (one_output_per_document_with_kept_entities worldOnePage f64_0_8 0 [issue1, issue2] ⟨0⟩
      { StatusCode := 200, Body := .ok "echo" } echoResults ⟨rfl, rfl, rfl, _, rfl, rfl⟩).2.1.trans
      (by decide)⟩

/-- C3, as the code has it: every result object of a pass comes from one
document of the decoded response, in the order of the documents; its id is the
id of that response document (so it is the URL of an issue of the page when the
response carries the ids of the request), its redacted text is the redacted text
of the document, and its entities are the entities of the document with a score
`>=` the threshold, in their order. -/
theorem output_fields_follow_response_document (w : World) (t : Float64) (page : Nat)
    (issues : List Issue) (res : Response) (resp : HttpResponse)
    (r : PiiEntityRecognitionResults) (h : Decodes w page issues res resp r) :
    outputs (iteration w t page).events =
      r.Results.Documents.filterMap (fun doc =>
        if doc.Entities.filter (fun E => E.ConfidenceScore.ge t) = [] then none
        else some ⟨doc.ID, doc.RedactedText,
          doc.Entities.filter (fun E => E.ConfidenceScore.ge t)⟩) ∧
    (∀ o ∈ outputs (iteration w t page).events, ∃ doc ∈ r.Results.Documents,
      o.ID = doc.ID ∧ o.Redacted = doc.RedactedText ∧
      o.Entities = doc.Entities.filter (fun E => E.ConfidenceScore.ge t) ∧
      o.Entities.Sublist doc.Entities) ∧
    ((∀ doc ∈ r.Results.Documents, ∃ issue ∈ issues, doc.ID = issue.GetHTMLURL) →
      ∀ o ∈ outputs (iteration w t page).events, ∃ issue ∈ issues, o.ID = issue.GetHTMLURL) := by
  have hout := outputs_of_decodes w t page issues res resp r h
  have hmem : ∀ o ∈ outputs (iteration w t page).events, ∃ doc ∈ r.Results.Documents,
      o.ID = doc.ID ∧ o.Redacted = doc.RedactedText ∧
      o.Entities = doc.Entities.filter (fun E => E.ConfidenceScore.ge t) ∧
      o.Entities.Sublist doc.Entities := by
    intro o ho
    rw [hout, List.mem_filterMap] at ho
    obtain ⟨doc, hdoc, hspec⟩ := ho
    refine ⟨doc, hdoc, ?_⟩
    unfold specOutput at hspec
    split at hspec
    · cases hspec
    · cases hspec
      exact ⟨rfl, rfl, rfl, List.filter_sublist _⟩
  refine ⟨?_, hmem, ?_⟩
  · rw [hout]
    rfl
  · intro hecho o ho
    obtain ⟨doc, hdoc, hid, _⟩ := hmem o ho
    obtain ⟨issue, hissue, hurl⟩ := hecho doc hdoc
    exact ⟨issue, hissue, hid.trans hurl⟩

/-- Witness of the amended C3 in the one-page stub. -/
theorem output_fields_follow_response_document_witness :
    outputs (iteration worldOnePage f64_0_8 0).events =
      [⟨"https://github.com/o/r/issues/1", "**** ****", [entityHigh, entityEdge]⟩] :=
  (output_fields_follow_response_document worldOnePage f64_0_8 0 [issue1, issue2] ⟨0⟩
    { StatusCode := 200, Body := .ok "echo" } echoResults ⟨rfl, rfl, rfl, _, rfl, rfl⟩).1.trans
    (by decide)

/-- C3 as stated fails: with the one issue `issue1` and a stubbed response whose
document has the id 7, the result object has the id 7, not the URL of the issue. -/
theorem output_id_is_not_always_issue_url :
    (main worldForeignId 1).map outputs = some [⟨"7", "call ****", [entityHigh]⟩] ∧
    worldForeignId.listByRepo "o" "r" { State := "all", PerPage := 5, Page := 0 } =
      .ok ([issue1], ⟨0⟩) ∧
    issue1.GetHTMLURL = "https://github.com/o/r/issues/1" ∧
    ¬ ((main worldForeignId 1).map (fun trace => (outputs trace).map (fun o => o.ID)) =
      some [issue1.GetHTMLURL]) :=
  ⟨by decide, rfl, rfl, by decide⟩

/-! ### The request of a page -/

theorem foldl_append_map {α β : Type} (f : α → β) (xs : List α) (acc : List β) :
    xs.foldl (fun out x => out ++ [f x]) acc = acc ++ xs.map f := by
  induction xs generalizing acc with
  | nil => simp
  | cons x xs ih => simp [List.foldl_cons, ih]

theorem buildDocuments_eq_map (issues : List Issue) :
    buildDocuments issues =
      issues.map (fun issue => ⟨issue.GetHTMLURL, issue.GetBody, "en"⟩) := by
  unfold buildDocuments
  rw [foldl_append_map (fun issue : Issue => (⟨issue.GetHTMLURL, issue.GetBody, "en"⟩ : Document))]
  simp

theorem requests_reportDocuments (w : World) (t : Float64) (docs : List DocumentResponse) :
    requests (reportDocuments w t docs).1 = [] := by
  induction docs with
  | nil => rfl
  | cons doc rest ih =>
    unfold reportDocuments
    simp only
    split
    · split
      · rfl
      · simpa [requests] using ih
    · exact ih

theorem requests_of_created (w : World) (t : Float64) (page : Nat) (issues : List Issue)
    (res : Response)
    (hfetch : w.listByRepo w.owner w.repo { State := "all", PerPage := 5, Page := page } =
      .ok (issues, res))
    (hurl : w.urlError (serviceEndpoint w) = none) :
    requests (iteration w t page).events = [specRequest w issues] := by
  unfold iteration
  simp only [hfetch, jsonMarshal, httpNewRequest, hurl, HttpRequest.addHeader, List.nil_append,
    List.singleton_append, ioReadAll]
  split
  · rfl
  · split
    · rfl
    · split
      · rfl
      · simp only [requests_append, requests_reportDocuments]
        rfl

/-- C4: for every page of issues that the fetcher returns, the request data
built by `main` has kind "PiiEntityRecognition", domain "phi" and one Document
per issue, in order, with the URL of the issue as id, its body as text and the
language "en"; the pass sends exactly one request, whose body encodes that data,
and for a page without issues that is a request with zero documents. -/
theorem request_has_one_document_per_issue (w : World) (t : Float64) (page : Nat)
    (issues : List Issue) (res : Response)
    (hfetch : w.listByRepo w.owner w.repo { State := "all", PerPage := 5, Page := page } =
      .ok (issues, res))
    (hurl : w.urlError (serviceEndpoint w) = none) :
    (buildRequestData issues).Kind = "PiiEntityRecognition" ∧
    (buildRequestData issues).Parameters.Domain = "phi" ∧
    (buildRequestData issues).AnalysisInput.Documents =
      issues.map (fun issue => ⟨issue.GetHTMLURL, issue.GetBody, "en"⟩) ∧
    (buildRequestData issues).AnalysisInput.Documents.length = issues.length ∧
    requests (iteration w t page).events =
      [⟨"POST", w.endpoint ++ "/language/:analyze-text?api-version=2022-05-01",
        [("Ocp-Apim-Subscription-Key", w.key), ("Content-Type", "application/json")],
        w.encodeRequest (buildRequestData issues)⟩] ∧
    (issues = [] →
      requests (iteration w t page).events =
        [⟨"POST", w.endpoint ++ "/language/:analyze-text?api-version=2022-05-01",
          [("Ocp-Apim-Subscription-Key", w.key), ("Content-Type", "application/json")],
          w.encodeRequest ⟨"PiiEntityRecognition", ⟨[]⟩, ⟨"phi"⟩⟩⟩]) := by
  have hreq := requests_of_created w t page issues res hfetch hurl
  refine ⟨rfl, rfl, buildDocuments_eq_map issues, ?_, hreq, ?_⟩
  · show (buildDocuments issues).length = issues.length
    rw [buildDocuments_eq_map, List.length_map]
  · intro hnil
    rw [hreq, hnil]
    rfl

/-- Witness of C4: the stub with one empty page still sends a request. -/
theorem request_has_one_document_per_issue_witness :
    requests (iteration worldEmptyPage f64_0_8 0).events =
      [⟨"POST",
        "https://example.cognitiveservices.azure.com/language/:analyze-text?api-version=2022-05-01",
        [("Ocp-Apim-Subscription-Key", "secret"), ("Content-Type", "application/json")],
        ""⟩] :=
  ((request_has_one_document_per_issue worldEmptyPage f64_0_8 0 [] ⟨0⟩ rfl rfl).2.2.2.2.2
    rfl).trans (by decide)

/-! ### Runs -/

/-- C5: when the issue source reports no next page on the first fetch and no
step fails, `main` fetches once, sends one analysis request, and the loop is
left by the `break` of its first pass. -/
theorem one_pass_when_no_next_page (w : World) (t : Float64) (issues : List Issue)
    (res : Response) (resp : HttpResponse) (r : PiiEntityRecognitionResults) (fuel : Nat)
    (hparse : w.parseFloat w.confidence = .ok t)
    (hpage : Decodes w 0 issues res resp r)
    (hnext : res.NextPage = 0) :
    (iteration w t 0).outcome = Outcome.broke ∧
    main w (fuel + 1) = some ((iteration w t 0).events ++ [Event.bodyClose 0]) ∧
    fetches ((iteration w t 0).events ++ [Event.bodyClose 0]) = [0] ∧
    requests ((iteration w t 0).events ++ [Event.bodyClose 0]) = [specRequest w issues] ∧
    errors ((iteration w t 0).events ++ [Event.bodyClose 0]) = [] := by
  have hout := outcome_of_decodes w t 0 issues res resp r hpage
  rw [if_pos hnext] at hout
  refine ⟨hout.1, ?_, ?_, ?_, ?_⟩
  · unfold main
    simp only [hparse]
    rw [mainLoop_stop w t fuel 0 [] (by rw [hout.1]; decide), hout.2]
    rfl
  · rw [fetches_append, fetches_of_decodes w t 0 issues res resp r hpage]
    rfl
  · rw [requests_append, requests_of_decodes w t 0 issues res resp r hpage]
    rfl
  · rw [errors_append, errors_of_decodes w t 0 issues res resp r hpage]
    rfl

/-- Witness of C5 in the one-page stub. -/
theorem one_pass_when_no_next_page_witness :
    (main worldOnePage 1).map fetches = some [0] ∧
    (main worldOnePage 1).map (fun trace => (requests trace).length) = some 1 :=
  have h := one_pass_when_no_next_page worldOnePage f64_0_8 [issue1, issue2] ⟨0⟩
    { StatusCode := 200, Body := .ok "echo" } echoResults 0 rfl ⟨rfl, rfl, rfl, _, rfl, rfl⟩ rfl
  ⟨by rw [h.2.1, Option.map_some', h.2.2.1], by rw [h.2.1, Option.map_some', h.2.2.2.1]; rfl⟩

/-- C6, as the code has it: when the issue source reports a next page for pages 0
and 1 and none for page 2, and no step fails, `main` fetches three times and
sends three analysis requests, one per page fetched. -/
theorem three_requests_for_three_pages (w : World) (t : Float64) (fuel : Nat)
    (issues0 issues1 issues2 : List Issue) (res0 res1 res2 : Response)
    (resp0 resp1 resp2 : HttpResponse) (r0 r1 r2 : PiiEntityRecognitionResults)
    (hparse : w.parseFloat w.confidence = .ok t)
    (hpage0 : Decodes w 0 issues0 res0 resp0 r0) (hnext0 : res0.NextPage ≠ 0)
    (hpage1 : Decodes w 1 issues1 res1 resp1 r1) (hnext1 : res1.NextPage ≠ 0)
    (hpage2 : Decodes w 2 issues2 res2 resp2 r2) (hnext2 : res2.NextPage = 0) :
    ∃ trace, main w (fuel + 3) = some trace ∧
      fetches trace = [0, 1, 2] ∧
      requests trace = [specRequest w issues0, specRequest w issues1, specRequest w issues2] ∧
      (requests trace).length = 3 ∧
      errors trace = [] := by
  have hprev : ∀ i, i < 2 → ∃ issues res resp r,
      Decodes w i issues res resp r ∧ res.NextPage ≠ 0 := by
    intro i hi
    match i, hi with
    | 0, _ => exact ⟨issues0, res0, resp0, r0, hpage0, hnext0⟩
    | 1, _ => exact ⟨issues1, res1, resp1, r1, hpage1, hnext1⟩
  have hrun := mainLoop_of_pages w t 2 fuel hprev ⟨issues2, res2, resp2, r2, hpage2, hnext2⟩
  refine ⟨passes w t (2 + 1) 0 ++ runDeferred (List.range' 0 (2 + 1)).reverse, ?_, ?_, ?_, ?_, ?_⟩
  · unfold main
    simp only [hparse]
    rw [show fuel + 3 = 2 + (fuel + 1) by omega]
    exact hrun
  · simp only [passes, fetches_append, fetches_runDeferred,
      fetches_of_decodes w t 0 issues0 res0 resp0 r0 hpage0,
      fetches_of_decodes w t 1 issues1 res1 resp1 r1 hpage1,
      fetches_of_decodes w t 2 issues2 res2 resp2 r2 hpage2]
    rfl
  · simp only [passes, requests_append, requests_runDeferred,
      requests_of_decodes w t 0 issues0 res0 resp0 r0 hpage0,
      requests_of_decodes w t 1 issues1 res1 resp1 r1 hpage1,
      requests_of_decodes w t 2 issues2 res2 resp2 r2 hpage2]
    rfl
  · simp only [passes, requests_append, requests_runDeferred,
      requests_of_decodes w t 0 issues0 res0 resp0 r0 hpage0,
      requests_of_decodes w t 1 issues1 res1 resp1 r1 hpage1,
      requests_of_decodes w t 2 issues2 res2 resp2 r2 hpage2]
    rfl
  · simp only [passes, errors_append, errors_runDeferred,
      errors_of_decodes w t 0 issues0 res0 resp0 r0 hpage0,
      errors_of_decodes w t 1 issues1 res1 resp1 r1 hpage1,
      errors_of_decodes w t 2 issues2 res2 resp2 r2 hpage2]
    rfl

/-- Witness of the amended C6 in the three-page stub. -/
theorem three_requests_for_three_pages_witness :
    ∃ trace, main worldThreePages 3 = some trace ∧
      fetches trace = [0, 1, 2] ∧
      requests trace = [specRequest worldThreePages [issue1], specRequest worldThreePages [issue2],
        specRequest worldThreePages []] ∧
      (requests trace).length = 3 ∧
      errors trace = [] :=
  three_requests_for_three_pages worldThreePages f64_0_8 0 [issue1] [issue2] [] ⟨2⟩ ⟨3⟩ ⟨0⟩
    { StatusCode := 200, Body := .ok "foreign" } { StatusCode := 200, Body := .ok "echo" }
    { StatusCode := 200, Body := .ok "error payload" } foreignResults echoResults emptyResults
    rfl ⟨rfl, rfl, rfl, _, rfl, rfl⟩ (by decide) ⟨rfl, rfl, rfl, _, rfl, rfl⟩ (by decide)
    ⟨rfl, rfl, rfl, _, rfl, rfl⟩ rfl

/-- C6 as stated fails: a stubbed issue source with a next page for pages 0 and 1
and none for page 2 makes `main` send three analysis requests, not two. -/
theorem two_requests_claim_fails :
    worldThreePages.listByRepo "o" "r" { State := "all", PerPage := 5, Page := 0 } =
      .ok ([issue1], ⟨2⟩) ∧
    worldThreePages.listByRepo "o" "r" { State := "all", PerPage := 5, Page := 1 } =
      .ok ([issue2], ⟨3⟩) ∧
    worldThreePages.listByRepo "o" "r" { State := "all", PerPage := 5, Page := 2 } =
      .ok ([], ⟨0⟩) ∧
    (main worldThreePages 3).map errors = some [] ∧
    (main worldThreePages 3).map (fun trace => (requests trace).length) = some 3 ∧
    ¬ ((main worldThreePages 3).map (fun trace => (requests trace).length) = some 2) :=
  ⟨rfl, rfl, rfl, by decide, by decide, by decide⟩

/-- C7: when the threshold string does not parse, `main` prints the parse error
and returns: no issue fetch, no analysis request, no result object. -/
theorem bad_threshold_stops_before_any_call (w : World) (err : String) (fuel : Nat)
    (hparse : w.parseFloat w.confidence = .error err) :
    main w fuel = some [Event.printError "Error parsing confidence score threshold:" err] ∧
    fetches [Event.printError "Error parsing confidence score threshold:" err] = [] ∧
    requests [Event.printError "Error parsing confidence score threshold:" err] = [] ∧
    outputs [Event.printError "Error parsing confidence score threshold:" err] = [] ∧
    errors [Event.printError "Error parsing confidence score threshold:" err] =
      [("Error parsing confidence score threshold:", err)] := by
  refine ⟨?_, rfl, rfl, rfl, rfl⟩
  unfold main
  simp only [hparse]

/-- Witness of C7: the stub whose threshold is the word "high". -/
theorem bad_threshold_stops_before_any_call_witness :
    main worldBadThreshold 0 =
      some [Event.printError "Error parsing confidence score threshold:"
        "strconv.ParseFloat: invalid syntax"] :=
  (bad_threshold_stops_before_any_call worldBadThreshold "strconv.ParseFloat: invalid syntax" 0
    rfl).1

/-! ### The status code -/

theorem reportDocuments_withStatus (w : World) (code : Nat → HttpRequest → Int) (t : Float64)
    (docs : List DocumentResponse) :
    reportDocuments (w.withStatus code) t docs = reportDocuments w t docs := by
  induction docs with
  | nil => rfl
  | cons doc rest ih =>
    simp only [reportDocuments, ih]
    rfl

theorem iteration_withStatus (w : World) (code : Nat → HttpRequest → Int) (t : Float64)
    (page : Nat) : iteration (w.withStatus code) t page = iteration w t page := by
  have e1 : jsonUnmarshal (w.withStatus code) = jsonUnmarshal w := rfl
  have e2 : serviceEndpoint (w.withStatus code) = serviceEndpoint w := rfl
  have e3 : (w.withStatus code).listByRepo = w.listByRepo := rfl
  have e4 : (w.withStatus code).urlError = w.urlError := rfl
  have e5 : (w.withStatus code).owner = w.owner := rfl
  have e6 : (w.withStatus code).repo = w.repo := rfl
  have e7 : (w.withStatus code).key = w.key := rfl
  have e8 : (w.withStatus code).encodeRequest = w.encodeRequest := rfl
  have e9 : ∀ i req, (w.withStatus code).clientDo i req =
      match w.clientDo i req with
      | .ok resp => .ok { resp with StatusCode := code i req }
      | .error err => .error err := fun _ _ => rfl
  unfold iteration
  simp only [reportDocuments_withStatus, e1, e2, e3, e4, e5, e6, e7, e8, e9, jsonMarshal,
    httpNewRequest]
  rcases hl : w.listByRepo w.owner w.repo { State := "all", PerPage := 5, Page := page } with
    err | ⟨issues, res⟩
  · rfl
  · simp only []
    rcases hu : w.urlError (serviceEndpoint w) with _ | err
    · simp only []
      rcases hd : w.clientDo page (HttpRequest.addHeader (HttpRequest.addHeader
          { Method := "POST", URL := serviceEndpoint w, Header := [],
            Body := w.encodeRequest (buildRequestData issues) }
          "Ocp-Apim-Subscription-Key" w.key) "Content-Type" "application/json") with err | resp
      · rfl
      · rfl
    · rfl

theorem mainLoop_withStatus (w : World) (code : Nat → HttpRequest → Int) (t : Float64)
    (fuel : Nat) : ∀ (page : Nat) (deferred : List Nat),
      mainLoop (w.withStatus code) t fuel page deferred = mainLoop w t fuel page deferred := by
  induction fuel with
  | zero => intro page deferred; rfl
  | succ fuel ih =>
    intro page deferred
    simp only [mainLoop, iteration_withStatus, ih]

/-- C10: `main` never looks at the status code of the analysis response.  The
run is the same whatever the status codes are; a page whose body decodes is a
successful page, and when the decoded object has no result documents the pass
prints nothing, neither a result nor an error, and goes on to the next-page
check like any other page. -/
theorem status_code_is_never_inspected (w : World) (code : Nat → HttpRequest → Int)
    (t : Float64) (fuel page : Nat) (issues : List Issue) (res : Response) (resp : HttpResponse)
    (r : PiiEntityRecognitionResults) (h : Decodes w page issues res resp r) :
    main (w.withStatus code) fuel = main w fuel ∧
    Decodes (w.withStatus code) page issues res
      { resp with StatusCode := code page (specRequest w issues) } r ∧
    errors (iteration (w.withStatus code) t page).events = [] ∧
    (iteration (w.withStatus code) t page).outcome =
      (if res.NextPage = 0 then Outcome.broke else Outcome.next) ∧
    (r.Results.Documents = [] →
      (iteration (w.withStatus code) t page).events =
        [Event.listByRepo w.owner w.repo { State := "all", PerPage := 5, Page := page },
          Event.clientDo (specRequest w issues), Event.bodyOpen page]) := by
  refine ⟨?_, ?_, ?_, ?_, ?_⟩
  · unfold main
    show (match w.parseFloat w.confidence with
      | .error err => _
      | .ok confidenceThreshold => _) = _
    cases w.parseFloat w.confidence with
    | error err => rfl
    | ok v => exact mainLoop_withStatus w code v fuel 0 []
  · obtain ⟨h1, h2, h3, body, h4, h5⟩ := h
    refine ⟨h1, h2, ?_, body, h4, h5⟩
    show (match w.clientDo page (specRequest w issues) with
      | .ok resp => Except.ok { resp with StatusCode := code page (specRequest w issues) }
      | .error err => Except.error err) = _
    rw [h3]
  · rw [iteration_withStatus]
    exact errors_of_decodes w t page issues res resp r h
  · rw [iteration_withStatus]
    exact (outcome_of_decodes w t page issues res resp r h).1
  · intro hempty
    rw [iteration_withStatus, iteration_of_decodes w t page issues res resp r h, hempty]
    rfl

/-- Witness of C10: the stubbed service answers 401 with an error payload, and
the status is then replaced by 500. -/
theorem status_code_is_never_inspected_witness :
    main (worldUnauthorized.withStatus (fun _ _ => 500)) 2 = main worldUnauthorized 2 ∧
    (iteration (worldUnauthorized.withStatus (fun _ _ => 500)) f64_0_8 0).outcome =
      Outcome.next ∧
    errors (iteration (worldUnauthorized.withStatus (fun _ _ => 500)) f64_0_8 0).events = [] :=
  have h := status_code_is_never_inspected worldUnauthorized (fun _ _ => 500) f64_0_8 2 0
    [issue1] ⟨2⟩ { StatusCode := 401, Body := .ok "error payload" } emptyResults
    ⟨rfl, rfl, rfl, _, rfl, rfl⟩
  ⟨h.1, h.2.2.2.1, h.2.2.1⟩

/-! ### A response that does not decode -/

theorem passes_prefix_of_run (w : World) (t : Float64) (n fuel : Nat) (trace : List Event)
    (hprev : ∀ i, i < n → ∃ issues res resp r,
      Decodes w i issues res resp r ∧ res.NextPage ≠ 0)
    (hrun : mainLoop w t fuel 0 [] = some trace) :
    ∃ rest, trace = passes w t n 0 ++ rest := by
  have hprev0 : ∀ i, i < n → ∃ issues res resp r,
      Decodes w (0 + i) issues res resp r ∧ res.NextPage ≠ 0 := by
    intro i hi
    rw [Nat.zero_add]
    exact hprev i hi
  by_cases hf : fuel < n
  · have hsub : ∀ i, i < fuel → (iteration w t (0 + i)).outcome = Outcome.next ∧
        (iteration w t (0 + i)).deferred = [0 + i] :=
      fun i hi => next_of_decodes w t n 0 hprev0 i (Nat.lt_trans hi hf)
    have := mainLoop_passes w t fuel 0 0 [] hsub
    rw [Nat.add_zero, hrun] at this
    simp [mainLoop] at this
  · obtain ⟨f, rfl⟩ : ∃ f, fuel = n + f := ⟨fuel - n, by omega⟩
    rw [mainLoop_passes w t n f 0 [] (next_of_decodes w t n 0 hprev0)] at hrun
    cases hm : mainLoop w t f (0 + n) ((List.range' 0 n).reverse ++ []) with
    | none => rw [hm] at hrun; cases hrun
    | some rest =>
      rw [hm] at hrun
      simp only [Option.map_some', Option.some.injEq] at hrun
      exact ⟨rest, hrun.symm⟩

/-- C8: when the body of the response for page `n` does not decode, `main` prints
the decode error and returns.  The trace is the passes for the pages before `n`,
then the fetch and the request for page `n` and the error message; there is no
later fetch, request or result object, and the result objects of the run are
those of the pages before `n`, which every run that gets the same responses for
these pages prints first. -/
theorem undecodable_response_ends_the_run (w : World) (t : Float64) (n fuel : Nat)
    (rs : Nat → PiiEntityRecognitionResults) (issues : List Issue) (res : Response)
    (resp : HttpResponse) (responseBody err : String)
    (hparse : w.parseFloat w.confidence = .ok t)
    (hprev : ∀ i, i < n → ∃ issues res resp,
      Decodes w i issues res resp (rs i) ∧ res.NextPage ≠ 0)
    (hfetch : w.listByRepo w.owner w.repo { State := "all", PerPage := 5, Page := n } =
      .ok (issues, res))
    (hurl : w.urlError (serviceEndpoint w) = none)
    (hdo : w.clientDo n (specRequest w issues) = .ok resp)
    (hread : resp.Body = .ok responseBody)
    (hdecode : jsonUnmarshal w responseBody = .error err) :
    ∃ trace, main w (n + (fuel + 1)) = some trace ∧
      trace = passes w t n 0 ++
        ([Event.listByRepo w.owner w.repo { State := "all", PerPage := 5, Page := n },
          Event.clientDo (specRequest w issues), Event.bodyOpen n,
          Event.printError "Error unmarshalling response body:" err] ++
        runDeferred (List.range' 0 (n + 1)).reverse) ∧
      outputs trace = outputs (passes w t n 0) ∧
      outputs trace =
        (List.range n).flatMap (fun i => (rs i).Results.Documents.filterMap (specOutput t)) ∧
      fetches trace = List.range (n + 1) ∧
      (requests trace).length = n + 1 ∧
      errors trace = [("Error unmarshalling response body:", err)] ∧
      (∀ (w2 : World) (fuel2 : Nat) (trace2 : List Event),
        w2.parseFloat w2.confidence = .ok t →
        (∀ i, i < n → ∃ issues res resp,
          Decodes w2 i issues res resp (rs i) ∧ res.NextPage ≠ 0) →
        main w2 fuel2 = some trace2 → outputs trace <+: outputs trace2) := by
  have hprev4 : ∀ i, i < n → ∃ issues res resp r,
      Decodes w i issues res resp r ∧ res.NextPage ≠ 0 := by
    intro i hi
    obtain ⟨a, b, c, hd⟩ := hprev i hi
    exact ⟨a, b, c, rs i, hd⟩
  have hprev0 : ∀ i, i < n → ∃ issues res resp r,
      Decodes w (0 + i) issues res resp r ∧ res.NextPage ≠ 0 := by
    intro i hi
    rw [Nat.zero_add]
    exact hprev4 i hi
  have hdec0 : ∀ i, i < n → ∃ issues res resp r, Decodes w (0 + i) issues res resp r := by
    intro i hi
    obtain ⟨a, b, c, d, hd, _⟩ := hprev0 i hi
    exact ⟨a, b, c, d, hd⟩
  have hdecrs : ∀ (w2 : World), (∀ i, i < n → ∃ issues res resp,
      Decodes w2 i issues res resp (rs i) ∧ res.NextPage ≠ 0) →
      ∀ i, i < n → ∃ issues res resp, Decodes w2 (0 + i) issues res resp (rs (0 + i)) := by
    intro w2 h2 i hi
    obtain ⟨a, b, c, hd, _⟩ := h2 i hi
    rw [Nat.zero_add]
    exact ⟨a, b, c, hd⟩
  have hdo2 : w.clientDo n
      { Method := "POST", URL := serviceEndpoint w,
        Header := [("Ocp-Apim-Subscription-Key", w.key), ("Content-Type", "application/json")],
        Body := w.encodeRequest (buildRequestData issues) } = .ok resp := hdo
  have hit : iteration w t n =
      ⟨[Event.listByRepo w.owner w.repo { State := "all", PerPage := 5, Page := n },
        Event.clientDo (specRequest w issues), Event.bodyOpen n,
        Event.printError "Error unmarshalling response body:" err], Outcome.returned, [n]⟩ := by
    simp [iteration, hfetch, jsonMarshal, httpNewRequest, hurl, HttpRequest.addHeader, hdo2,
      ioReadAll, hread, hdecode, specRequest]
  have hout : outputs (passes w t n 0 ++
      ([Event.listByRepo w.owner w.repo { State := "all", PerPage := 5, Page := n },
        Event.clientDo (specRequest w issues), Event.bodyOpen n,
        Event.printError "Error unmarshalling response body:" err] ++
      runDeferred (List.range' 0 (n + 1)).reverse)) = outputs (passes w t n 0) := by
    rw [outputs_append, outputs_append, outputs_runDeferred]
    simp [outputs]
  have houtrs : ∀ (w2 : World), (∀ i, i < n → ∃ issues res resp,
      Decodes w2 i issues res resp (rs i) ∧ res.NextPage ≠ 0) →
      outputs (passes w2 t n 0) =
        (List.range n).flatMap (fun i => (rs i).Results.Documents.filterMap (specOutput t)) := by
    intro w2 h2
    rw [outputs_passes w2 t rs n 0 (hdecrs w2 h2), List.range_eq_range']
  refine ⟨_, ?_, rfl, hout, ?_, ?_, ?_, ?_, ?_⟩
  · unfold main
    simp only [hparse]
    rw [mainLoop_passes w t n (fuel + 1) 0 [] (next_of_decodes w t n 0 hprev0), Nat.zero_add,
      mainLoop_stop w t fuel n _ (by rw [hit]; exact fun h => Outcome.noConfusion h), hit]
    simp [List.range'_concat]
  · rw [hout, houtrs w hprev]
  · rw [fetches_append, fetches_append, fetches_runDeferred, fetches_passes w t n 0 hdec0]
    simp [fetches, List.range_eq_range', List.range'_concat]
  · rw [requests_append, requests_append, requests_runDeferred, List.length_append,
      requests_passes w t n 0 hdec0]
    simp [requests]
  · rw [errors_append, errors_append, errors_runDeferred, errors_passes w t n 0 hdec0]
    simp [errors]
  · intro w2 fuel2 trace2 hparse2 h2 hrun2
    have h24 : ∀ i, i < n → ∃ issues res resp r,
        Decodes w2 i issues res resp r ∧ res.NextPage ≠ 0 := by
      intro i hi
      obtain ⟨a, b, c, hd⟩ := h2 i hi
      exact ⟨a, b, c, rs i, hd⟩
    unfold main at hrun2
    simp only [hparse2] at hrun2
    obtain ⟨rest, hrest⟩ := passes_prefix_of_run w2 t n fuel2 trace2 h24 hrun2
    rw [hout, houtrs w hprev, hrest, outputs_append, houtrs w2 h2]
    exact List.prefix_append _ _

/-- Witness of C8: the body of the answer for page 1 is cut short. -/
theorem undecodable_response_ends_the_run_witness :
    ∃ trace, main worldTruncated 2 = some trace ∧
      outputs trace = [⟨"7", "call ****", [entityHigh]⟩] ∧
      fetches trace = [0, 1] ∧
      errors trace = [("Error unmarshalling response body:", "unexpected end of JSON input")] :=
  have h := undecodable_response_ends_the_run worldTruncated f64_0_8 1 0
    (fun _ => foreignResults) [issue2] ⟨3⟩ { StatusCode := 200, Body := .ok "\"kind" } "\"kind"
    "unexpected end of JSON input" rfl
    (fun i hi => ⟨[issue1], ⟨2⟩, { StatusCode := 200, Body := .ok "foreign" },
      by
        obtain rfl : i = 0 := by omega
        exact ⟨⟨rfl, rfl, rfl, _, rfl, rfl⟩, by decide⟩⟩)
    rfl rfl rfl rfl rfl
  h.imp (fun _ ht => ⟨ht.1, ht.2.2.2.1.trans (by decide), ht.2.2.2.2.1.trans (by decide),
    ht.2.2.2.2.2.2.1⟩)

/-! ### Response bodies -/

/-- C9 fails on the code: `defer resp.Body.Close()` stands inside the loop, so the
body of a pass is closed when `main` returns, not when the pass ends.  In the
stub with two pages the body of pass 0 is still open when pass 1 starts, two
bodies are open at once, and both are closed, last one first, at the return. -/
theorem bodies_stay_open_until_main_returns :
    (main worldTwoPages 2).map openAtFetches = some [[], [0]] ∧
    (main worldTwoPages 2).map maxOpenBodies = some 2 ∧
    (main worldTwoPages 2).map (fun trace => trace.drop (trace.length - 2)) =
      some [Event.bodyClose 1, Event.bodyClose 0] ∧
    (main worldTwoPages 2).map openBodies = some [] := by
  decide

end TextAnalyzer
